import Mathlib

/-!
Verification of `py_pdf_parser/tables.py`.

The module defines two table extractors (`extract_simple_table` and
`extract_table`), text projection and header association over grids, and a
shape validator.  The element-collection collaborator (`filtering.ElementList`,
not part of this module) is embedded abstractly: the extractors are
parametrised by a record of spatial-query operations, and a concrete
geometric instance (modelled from the documented collaborator contract) is
provided for evaluating the development on concrete inputs.

Python exceptions are embedded as an error type returned through `Except`;
the payloads of the structured constructors record exactly the data that the
corresponding Python exception messages interpolate.
-/

/-- Errors of the embedded module.  The first four kinds correspond to the
exception classes imported by `tables.py` (`NoElementFoundError`,
`TableExtractionError` in its three message variants, `InvalidTableError`,
`InvalidTableHeaderError` in its two message variants);
`multipleElementsFound` is the ambiguous-cell condition of the collaborator's
`extract_single_element`, and `indexError` models Python's built-in
`IndexError` raised by out-of-range indexing such as `table[0]` on `[]`. -/
inductive TableError where
  | noElementFound : TableError
  | multipleElementsFound : TableError
  | tableExtractionSizeMismatch (tableSize numElements : Nat) : TableError
  | tableExtractionMultipleRows : TableError
  | tableExtractionMultipleColumns : TableError
  | invalidTable (rowIdx firstRowLen rowLen : Nat) : TableError
  | invalidTableHeaderLength (headerLen tableWidth : Nat) : TableError
  | invalidTableHeaderRepeated : TableError
  | indexError : TableError
deriving DecidableEq, Repr

/-- Whether an error is a `TableExtractionError` in the Python module. -/
def TableError.isTableExtractionError : TableError → Bool
  | .tableExtractionSizeMismatch _ _ => true
  | .tableExtractionMultipleRows => true
  | .tableExtractionMultipleColumns => true
  | _ => false

/-- Whether an error is an `InvalidTableHeaderError` in the Python module. -/
def TableError.isInvalidTableHeaderError : TableError → Bool
  | .invalidTableHeaderLength _ _ => true
  | .invalidTableHeaderRepeated => true
  | _ => false

/-- Whether an error is one of the four error kinds declared (imported) by the
module: `NoElementFoundError`, `TableExtractionError`, `InvalidTableError`,
`InvalidTableHeaderError`.  Python's built-in `IndexError` and the
collaborator's ambiguous-cell condition are not among them. -/
def TableError.isModuleDeclaredError : TableError → Bool
  | .noElementFound => true
  | .tableExtractionSizeMismatch _ _ => true
  | .tableExtractionMultipleRows => true
  | .tableExtractionMultipleColumns => true
  | .invalidTable _ _ _ => true
  | .invalidTableHeaderLength _ _ => true
  | .invalidTableHeaderRepeated => true
  | _ => false

/-- A positioned text element: an axis-aligned bounding box with lower-left
corner `(x0, y0)`, upper-right corner `(x1, y1)`, and a text string. -/
structure PDFElement where
  x0 : Int
  y0 : Int
  x1 : Int
  y1 : Int
  text : String
deriving DecidableEq, Repr

/-- The spatial-query operations that `tables.py` requires from the
element-collection collaborator (`filtering.ElementList`, outside this
module).  A collection is embedded as a duplicate-free list of elements in the
collection's stable iteration order; each query derives a new collection. -/
structure SpatialOps where
  to_the_right_of : List PDFElement → PDFElement → Bool → List PDFElement
  below : List PDFElement → PDFElement → Bool → List PDFElement
  horizontally_in_line_with : List PDFElement → PDFElement → Bool → List PDFElement
  vertically_in_line_with : List PDFElement → PDFElement → Bool → List PDFElement
  inter : List PDFElement → List PDFElement → List PDFElement

/-- Modelled from the spec: `extract_single_element` of the element-collection
collaborator (its implementation is not part of `tables.py`): "fails with a
'no element found' condition when the collection is empty, and with an
'ambiguous' condition when it contains more than one element". -/
def extract_single_element (l : List PDFElement) : Except TableError PDFElement :=
  match l with
  | [] => .error .noElementFound
  | [e] => .ok e
  | _ :: _ :: _ => .error .multipleElementsFound

/-- Effectful map over a list in the `Except` monad: the embedding of a Python
`for` loop that appends one result per iteration and lets exceptions
propagate.  The first raised error aborts the loop. -/
def mapME (f : α → Except TableError β) : List α → Except TableError (List β)
  | [] => .ok []
  | x :: xs =>
    match f x with
    | .error e => .error e
    | .ok y =>
      match mapME f xs with
      | .error e => .error e
      | .ok ys => .ok (y :: ys)

/-- One cell probe of `extract_simple_table` (`tables.py` lines 39-45):
`elements.to_the_right_of(left_hand_element, inclusive=True).below(top_element,
inclusive=True)` passed to `extract_single_element`, with the
`NoElementFoundError` case caught and turned into `None`.  Any other error
propagates. -/
def probe_cell (ops : SpatialOps) (elements : List PDFElement)
    (left_hand_element top_element : PDFElement) : Except TableError (Option PDFElement) :=
  match extract_single_element
      (ops.below (ops.to_the_right_of elements left_hand_element true) top_element true) with
  | .ok e => .ok (some e)
  | .error .noElementFound => .ok none
  | .error e => .error e

/-- The probing phase of `extract_simple_table` (`tables.py` lines 32-46):
`elements[0]` raises `IndexError` on an empty collection; otherwise the first
row and first column are computed from the anchor and every (row, column) pair
is probed. -/
def simple_table_grid (ops : SpatialOps) (elements : List PDFElement) :
    Except TableError (List (List (Option PDFElement))) :=
  match elements with
  | [] => .error .indexError
  | e0 :: _ =>
    let first_row := ops.to_the_right_of elements e0 true
    let first_column := ops.below elements e0 true
    mapME (fun left_hand_element =>
      mapME (fun top_element => probe_cell ops elements left_hand_element top_element)
        first_row) first_column

/-- `_validate_table_shape`'s loop over `enumerate(table[1:])`: the error
reports `idx + 1`, the reference length of row 0 and the diverging row's
length. -/
def validate_rows (first_row_len : Nat) : Nat → List (List α) → Except TableError Unit
  | _, [] => .ok ()
  | idx, row :: rest =>
    if row.length = first_row_len then validate_rows first_row_len (idx + 1) rest
    else .error (.invalidTable (idx + 1) first_row_len row.length)

/-- `_validate_table_shape` (`tables.py` lines 190-200).  `len(table[0])` on an
empty table raises Python's `IndexError`. -/
def _validate_table_shape (table : List (List α)) : Except TableError Unit :=
  match table with
  | [] => .error .indexError
  | row0 :: rest => validate_rows row0.length 0 rest

/-- `extract_simple_table` (`tables.py` lines 17-57): probe the full grid, then
compare `sum(len(row) for row in table)` with `len(elements)`, then validate
the shape and return the table. -/
def extract_simple_table (ops : SpatialOps) (elements : List PDFElement) :
    Except TableError (List (List (Option PDFElement))) :=
  match simple_table_grid ops elements with
  | .error e => .error e
  | .ok table =>
    let table_size := (table.map List.length).sum
    if table_size ≠ elements.length then
      .error (.tableExtractionSizeMismatch table_size elements.length)
    else
      match _validate_table_shape table with
      | .error e => .error e
      | .ok _ => .ok table

/-- Insertion into a deduplicating accumulator: the embedding of `set.add` for
hashable collections, keeping first-insertion order to make the later sort's
tie-breaking deterministic (Python iterates the set in an unspecified order;
any order gives the same result except for exact key ties). -/
def dedup_insert (l : List (List PDFElement)) (x : List PDFElement) : List (List PDFElement) :=
  if x ∈ l then l else l ++ [x]

/-- The grouping loop of `extract_table` (`tables.py` lines 74-80): for every
element collect `horizontally_in_line_with` into the set of row-sets and
`vertically_in_line_with` into the set of column-sets. -/
def row_col_sets (ops : SpatialOps) (elements : List PDFElement) :
    List (List PDFElement) × List (List PDFElement) :=
  elements.foldl
    (fun p element =>
      (dedup_insert p.1 (ops.horizontally_in_line_with elements element true),
       dedup_insert p.2 (ops.vertically_in_line_with elements element true)))
    ([], [])

/-- `min([elem.bounding_box.y0 for elem in row])`.  Python's `min` raises on an
empty list; row-sets are built inclusive of their generating element and so are
never empty, making `0` an unreachable junk value. -/
def min_y0 (row : List PDFElement) : Int :=
  match row with
  | [] => 0
  | e :: es => es.foldl (fun m f => min m f.y0) e.y0

/-- `min([elem.bounding_box.x0 for elem in col])`; see `min_y0`. -/
def min_x0 (col : List PDFElement) : Int :=
  match col with
  | [] => 0
  | e :: es => es.foldl (fun m f => min m f.x0) e.x0

/-- Stable insertion of one element into an already-sorted list: the new
element goes after every earlier element whose key does not exceed it. -/
def insert_sorted (le : α → α → Bool) (x : α) : List α → List α
  | [] => [x]
  | y :: ys => if le y x then y :: insert_sorted le x ys else x :: y :: ys

/-- Stable sort (the embedding of Python's `sorted`, which is a stable sort):
elements are inserted left to right, each landing after all previously placed
elements with an equal key. -/
def stable_sort (le : α → α → Bool) (l : List α) : List α :=
  l.foldl (fun acc x => insert_sorted le x acc) []

/-- One cell of `extract_table`'s grid-building loop (`tables.py` lines
96-104): `(row & col).extract_single_element()` with `NoElementFoundError`
caught and turned into `None`.  Any other error propagates. -/
def table_cell (ops : SpatialOps) (row col : List PDFElement) :
    Except TableError (Option PDFElement) :=
  match extract_single_element (ops.inter row col) with
  | .ok e => .ok (some e)
  | .error .noElementFound => .ok none
  | .error e => .error e

/-- `extract_table` (`tables.py` lines 60-108): group elements into row-sets
and column-sets, check that no element is in multiple rows or columns, sort
rows top-to-bottom (descending minimum `y0`) and columns left-to-right
(ascending minimum `x0`), build the grid cell by cell, validate its shape and
return it. -/
def extract_table (ops : SpatialOps) (elements : List PDFElement) :
    Except TableError (List (List (Option PDFElement))) :=
  let rows := (row_col_sets ops elements).1
  let cols := (row_col_sets ops elements).2
  if (rows.map List.length).sum ≠ rows.flatten.dedup.length then
    .error .tableExtractionMultipleRows
  else if (cols.map List.length).sum ≠ cols.flatten.dedup.length then
    .error .tableExtractionMultipleColumns
  else
    let sorted_rows := stable_sort (fun a b => min_y0 b ≤ min_y0 a) rows
    let sorted_cols := stable_sort (fun a b => min_x0 a ≤ min_x0 b) cols
    match mapME (fun row => mapME (fun col => table_cell ops row col) sorted_cols) sorted_rows with
    | .error e => .error e
    | .ok table =>
      match _validate_table_shape table with
      | .error e => .error e
      | .ok _ => .ok table

/-- `_extract_text_from_table` (`tables.py` lines 176-187): validate the shape,
then map every cell to its element's text, or `""` for an empty cell. -/
def _extract_text_from_table (table : List (List (Option PDFElement))) :
    Except TableError (List (List String)) :=
  match _validate_table_shape table with
  | .error e => .error e
  | .ok _ =>
    .ok (table.map (fun row => row.map (fun cell =>
      match cell with
      | some element => element.text
      | none => "")))

/-- `extract_text_from_simple_table` (`tables.py` lines 111-117). -/
def extract_text_from_simple_table (ops : SpatialOps) (elements : List PDFElement) :
    Except TableError (List (List String)) :=
  match extract_simple_table ops elements with
  | .error e => .error e
  | .ok table => _extract_text_from_table table

/-- `extract_text_from_table` (`tables.py` lines 120-126). -/
def extract_text_from_table (ops : SpatialOps) (elements : List PDFElement) :
    Except TableError (List (List String)) :=
  match extract_table ops elements with
  | .error e => .error e
  | .ok table => _extract_text_from_table table

/-- An insertion-ordered string dictionary, the embedding of a Python `dict`
built by a comprehension: a list of key-value pairs with no repeated key. -/
abbrev DictRow := List (String × String)

/-- Python `dict` insertion: overwriting an existing key keeps its position
and updates its value; a new key is appended. -/
def dict_insert (d : DictRow) (k v : String) : DictRow :=
  if d.any (fun p => p.1 = k) then
    d.map (fun p => if p.1 = k then (k, v) else p)
  else
    d ++ [(k, v)]

/-- `{header[idx]: element for idx, element in enumerate(row)}`: the dict built
by inserting the pairs of `header` and `row` position by position.  (Inside
`add_header_to_table` the two lists always have equal length, so pairing them
is exactly the comprehension's indexing.) -/
def dict_of_row (header row : List String) : DictRow :=
  (header.zip row).foldl (fun d p => dict_insert d p.1 p.2) []

/-- The keys of a dict row, in insertion order. -/
def dict_keys (d : DictRow) : List String :=
  d.map Prod.fst

/-- Python `dict` lookup: the value stored at a key, if present. -/
def dict_lookup (d : DictRow) (k : String) : Option String :=
  (d.find? (fun p => p.1 = k)).map Prod.snd

/-- The effective header used by `add_header_to_table`: the supplied one, or
`table[0]` when none is supplied. -/
def effective_header (table : List (List String)) (header : Option (List String)) :
    List String :=
  match header with
  | none => table.headD []
  | some h => h

/-- `add_header_to_table` (`tables.py` lines 129-173): validate the shape,
record `bool(header)` (false for `None` and for an empty list), default the
header to `table[0]`, check an explicitly supplied header's length against
`len(table[0])` and its distinct-count (`len(set(header))`) against its
length, build one dict per row, and pop the first mapped row when
`header_provided` is false.  `table[0]` is written `table.headD []` because
the preceding shape validation has already rejected an empty table. -/
def add_header_to_table (table : List (List String)) (header : Option (List String)) :
    Except TableError (List DictRow) :=
  match _validate_table_shape table with
  | .error e => .error e
  | .ok _ =>
    let header_provided : Bool :=
      match header with
      | none => false
      | some h => !h.isEmpty
    let header_checked : Except TableError (List String) :=
      match header with
      | none => .ok (table.headD [])
      | some h =>
        if h.length ≠ (table.headD []).length then
          .error (.invalidTableHeaderLength h.length (table.headD []).length)
        else if h.length ≠ h.dedup.length then
          .error .invalidTableHeaderRepeated
        else .ok h
    match header_checked with
    | .error e => .error e
    | .ok hdr =>
      let new_table := table.map (fun row => dict_of_row hdr row)
      .ok (if header_provided then new_table else new_table.drop 1)

/-- Modelled from the spec: horizontal alignment of the collaborator's
contract — two elements share a row-line when their `y`-ranges overlap. -/
def horizontally_overlaps (a b : PDFElement) : Bool :=
  a.y0 ≤ b.y1 && b.y0 ≤ a.y1

/-- Modelled from the spec: vertical alignment — two elements share a
column-line when their `x`-ranges overlap. -/
def vertically_overlaps (a b : PDFElement) : Bool :=
  a.x0 ≤ b.x1 && b.x0 ≤ a.x1

/-- Modelled from the spec: `to_the_right_of` of the collaborator — the
elements of the collection in the reference element's horizontal band and
strictly to its right, plus the reference element itself when `inclusive`. -/
def geom_to_the_right_of (l : List PDFElement) (e : PDFElement) (inclusive : Bool) :
    List PDFElement :=
  l.filter (fun f => (horizontally_overlaps e f && e.x1 < f.x0) || (inclusive && f = e))

/-- Modelled from the spec: `below` of the collaborator — the elements of the
collection in the reference element's vertical band and strictly below it,
plus the reference element itself when `inclusive`. -/
def geom_below (l : List PDFElement) (e : PDFElement) (inclusive : Bool) :
    List PDFElement :=
  l.filter (fun f => (vertically_overlaps e f && f.y1 < e.y0) || (inclusive && f = e))

/-- Modelled from the spec: `horizontally_in_line_with` of the collaborator —
the elements sharing the reference element's row-line. -/
def geom_horizontally_in_line_with (l : List PDFElement) (e : PDFElement) (inclusive : Bool) :
    List PDFElement :=
  l.filter (fun f => horizontally_overlaps e f && (inclusive || f ≠ e))

/-- Modelled from the spec: `vertically_in_line_with` of the collaborator —
the elements sharing the reference element's column-line. -/
def geom_vertically_in_line_with (l : List PDFElement) (e : PDFElement) (inclusive : Bool) :
    List PDFElement :=
  l.filter (fun f => vertically_overlaps e f && (inclusive || f ≠ e))

/-- Modelled from the spec: set intersection of two collections, keeping the
first collection's order. -/
def geom_inter (l1 l2 : List PDFElement) : List PDFElement :=
  l1.filter (fun f => f ∈ l2)

/-- Modelled from the spec: the concrete geometric instance of the
collaborator's contract, used to evaluate the development on concrete element
layouts. -/
def geomOps : SpatialOps where
  to_the_right_of := geom_to_the_right_of
  below := geom_below
  horizontally_in_line_with := geom_horizontally_in_line_with
  vertically_in_line_with := geom_vertically_in_line_with
  inter := geom_inter

/-- The spec's notion of the total number of non-empty cells of a grid (the
code instead counts all cells, empty ones included). -/
def spec_non_empty_cell_count (grid : List (List (Option PDFElement))) : Nat :=
  (grid.map (fun row => (row.filter Option.isSome).length)).sum

/-- Concrete layout: top-left element of a 2 x 2 grid whose bottom-right cell
is missing. -/
def eA : PDFElement := ⟨0, 10, 5, 15, "A"⟩

/-- Concrete layout: top-right element. -/
def eB : PDFElement := ⟨10, 10, 15, 15, "B"⟩

/-- Concrete layout: bottom-left element. -/
def eC : PDFElement := ⟨0, 0, 5, 5, "C"⟩

/-- A 2 x 2 layout with three elements: the bottom-right cell is empty. -/
def es3 : List PDFElement := [eA, eB, eC]

/-- Staircase layout: three elements on overlapping diagonal steps, so that
each element's row-set (and column-set) differs while sharing members. -/
def sA : PDFElement := ⟨0, 0, 10, 10, "A"⟩

/-- Staircase layout: middle element, overlapping both neighbours. -/
def sB : PDFElement := ⟨8, 8, 20, 20, "B"⟩

/-- Staircase layout: top element, overlapping only the middle one. -/
def sC : PDFElement := ⟨18, 18, 30, 30, "C"⟩

/-- The staircase layout: row-sets and column-sets overlap without being
equal, so both disjointness checks of `extract_table` fail. -/
def st3 : List PDFElement := [sA, sB, sC]

/-! ## General lemmas about the embedded loops -/

theorem mapME_ok_length {f : α → Except TableError β} :
    ∀ {l : List α} {ys : List β}, mapME f l = .ok ys → ys.length = l.length := by
  intro l
  induction l with
  | nil => intro ys h; cases h; rfl
  | cons x xs ih =>
    intro ys h
    unfold mapME at h
    cases hx : f x with
    | error e => rw [hx] at h; cases h
    | ok y =>
      rw [hx] at h
      cases hxs : mapME f xs with
      | error e => rw [hxs] at h; cases h
      | ok ys2 =>
        rw [hxs] at h
        cases h
        simp [ih hxs]

theorem mapME_ok_forall {f : α → Except TableError β} :
    ∀ {l : List α} {ys : List β}, mapME f l = .ok ys → ∀ y ∈ ys, ∃ x ∈ l, f x = .ok y := by
  intro l
  induction l with
  | nil => intro ys h; cases h; intro y hy; cases hy
  | cons x xs ih =>
    intro ys h
    unfold mapME at h
    cases hx : f x with
    | error e => rw [hx] at h; cases h
    | ok y =>
      rw [hx] at h
      cases hxs : mapME f xs with
      | error e => rw [hxs] at h; cases h
      | ok ys2 =>
        rw [hxs] at h
        cases h
        intro z hz
        rcases List.mem_cons.mp hz with hz | hz
        · exact ⟨x, List.mem_cons_self x xs, hz ▸ hx⟩
        · rcases ih hxs z hz with ⟨x2, hx2, hfx2⟩
          exact ⟨x2, List.mem_cons_of_mem x hx2, hfx2⟩

theorem mapME_error_exists {f : α → Except TableError β} :
    ∀ {l : List α} {e : TableError}, mapME f l = .error e → ∃ x ∈ l, f x = .error e := by
  intro l
  induction l with
  | nil => intro e h; cases h
  | cons x xs ih =>
    intro e h
    unfold mapME at h
    cases hx : f x with
    | error e2 =>
      rw [hx] at h
      cases h
      exact ⟨x, List.mem_cons_self x xs, hx⟩
    | ok y =>
      rw [hx] at h
      cases hxs : mapME f xs with
      | error e2 =>
        rw [hxs] at h
        cases h
        rcases ih hxs with ⟨x2, hx2, hfx2⟩
        exact ⟨x2, List.mem_cons_of_mem x hx2, hfx2⟩
      | ok ys => rw [hxs] at h; cases h

/-! ## Lemmas about the shape validator -/

theorem validate_rows_ok_iff {α : Type _} (first_row_len : Nat) :
    ∀ (idx : Nat) (rest : List (List α)),
      validate_rows first_row_len idx rest = .ok () ↔
        ∀ row ∈ rest, row.length = first_row_len := by
  intro idx rest
  induction rest generalizing idx with
  | nil => simp [validate_rows]
  | cons row rest ih =>
    by_cases h : row.length = first_row_len
    · simp [validate_rows, h, ih (idx + 1)]
    · simp [validate_rows, h]

theorem validate_rows_error_cases {α : Type _} {first_row_len : Nat} :
    ∀ {idx : Nat} {rest : List (List α)} {e : TableError},
      validate_rows first_row_len idx rest = .error e →
        ∃ i r a, e = .invalidTable i r a := by
  intro idx rest
  induction rest generalizing idx with
  | nil => intro e h; cases h
  | cons row rest ih =>
    intro e h
    unfold validate_rows at h
    by_cases hl : row.length = first_row_len
    · rw [if_pos hl] at h
      exact ih h
    · rw [if_neg hl] at h
      cases h
      exact ⟨idx + 1, first_row_len, row.length, rfl⟩

theorem validate_rows_error_spec {α : Type _} {first_row_len : Nat} :
    ∀ {idx : Nat} {rest : List (List α)} {i ref act : Nat},
      validate_rows first_row_len idx rest = .error (.invalidTable i ref act) →
        ref = first_row_len ∧
        ∃ k row, k < rest.length ∧ i = idx + k + 1 ∧ rest[k]? = some row ∧
          act = row.length ∧ act ≠ first_row_len ∧
          ∀ row2 ∈ rest.take k, row2.length = first_row_len := by
  intro idx rest
  induction rest generalizing idx with
  | nil => intro i ref act h; cases h
  | cons row rest ih =>
    intro i ref act h
    unfold validate_rows at h
    by_cases hl : row.length = first_row_len
    · rw [if_pos hl] at h
      rcases ih h with ⟨href, k, row2, hk, hi, hget, hact, hne, htake⟩
      refine ⟨href, k + 1, row2, by simpa using hk, by omega, by simpa using hget, hact, hne, ?_⟩
      intro row3 hrow3
      rw [List.take_succ_cons] at hrow3
      rcases List.mem_cons.mp hrow3 with hrow3 | hrow3
      · exact hrow3 ▸ hl
      · exact htake row3 hrow3
    · rw [if_neg hl] at h
      cases h
      exact ⟨rfl, 0, row, by simp, by omega, by simp, rfl, hl, by simp⟩

theorem validate_table_shape_ok_iff {α : Type _} {table : List (List α)} (hne : table ≠ []) :
    _validate_table_shape table = .ok () ↔
      ∀ row ∈ table, row.length = (table.headD []).length := by
  cases table with
  | nil => exact absurd rfl hne
  | cons row0 rest =>
    show validate_rows row0.length 0 rest = .ok () ↔ _
    rw [validate_rows_ok_iff]
    constructor
    · intro h row hrow
      rcases List.mem_cons.mp hrow with hrow | hrow
      · simp [hrow]
      · simpa using h row hrow
    · intro h row hrow
      simpa using h row (List.mem_cons_of_mem row0 hrow)

theorem validate_table_shape_ok_uniform {α : Type _} {table : List (List α)}
    (h : _validate_table_shape table = .ok ()) :
    ∀ row ∈ table, row.length = (table.headD []).length := by
  cases table with
  | nil => cases h
  | cons row0 rest => exact (validate_table_shape_ok_iff (by simp)).mp h

theorem validate_table_shape_error_cases {α : Type _} {table : List (List α)} {e : TableError}
    (h : _validate_table_shape table = .error e) :
    e = .indexError ∨ ∃ i r a, e = .invalidTable i r a := by
  cases table with
  | nil => cases h; exact Or.inl rfl
  | cons row0 rest => exact Or.inr (validate_rows_error_cases h)

/-! ## C5: the shape validator's contract -/

/-- C5: for every non-empty grid, the Shape Validator succeeds iff every row
has the same length as row 0; on mismatch it fails with an error naming the
first diverging row index, the reference length of row 0 and the diverging
row's actual length; in particular `[["a","b"],["c"]]` fails naming row 1,
expected length 2, actual 1. -/
theorem validate_table_shape_spec {α : Type _} (table : List (List α)) (hne : table ≠ []) :
    (_validate_table_shape table = .ok () ↔
      ∀ row ∈ table, row.length = (table.headD []).length) ∧
    (∀ i ref act, _validate_table_shape table = .error (.invalidTable i ref act) →
      ref = (table.headD []).length ∧
      ∃ k row, i = k + 1 ∧ table[i]? = some row ∧ act = row.length ∧ act ≠ ref ∧
        ∀ row2 ∈ table.take i, row2.length = ref) ∧
    _validate_table_shape [["a", "b"], ["c"]] = .error (.invalidTable 1 2 1) := by
  refine ⟨validate_table_shape_ok_iff hne, ?_, rfl⟩
  intro i ref act h
  cases table with
  | nil => exact absurd rfl hne
  | cons row0 rest =>
    rcases validate_rows_error_spec (show validate_rows row0.length 0 rest = _ from h) with
      ⟨href, k, row, hk, hi, hget, hact, hne2, htake⟩
    have hi2 : i = k + 1 := by omega
    subst hi2
    refine ⟨by simpa using href, k, row, rfl, by simpa using hget, hact, by simpa [href] using hne2, ?_⟩
    intro row2 hrow2
    rw [List.take_succ_cons] at hrow2
    rcases List.mem_cons.mp hrow2 with hrow2 | hrow2
    · simp [hrow2, href]
    · rw [href]; exact htake row2 hrow2

/-- Witness for C5 at the grid `[["a","b"],["c"]]`. -/
theorem validate_table_shape_spec_witness :
    _validate_table_shape [["a", "b"], ["c"]] = .error (.invalidTable 1 2 1) :=
  (validate_table_shape_spec ([["a", "b"], ["c"]] : List (List String)) (by simp)).2.2

/-! ## C10: empty grids hit Python's IndexError, not a module error kind -/

/-- C10: on an empty grid, `_validate_table_shape` fails with the embedded
`IndexError` (from `table[0]`), and so do `add_header_to_table` (for any
header argument) and `_extract_text_from_table`, which validate first; the
`IndexError` is not one of the module's four declared error kinds. -/
theorem empty_grid_index_error :
    _validate_table_shape ([] : List (List String)) = .error .indexError ∧
    (∀ header : Option (List String), add_header_to_table [] header = .error .indexError) ∧
    _extract_text_from_table [] = .error .indexError ∧
    TableError.indexError.isModuleDeclaredError = false := by
  exact ⟨rfl, fun header => rfl, rfl, rfl⟩

/-! ## C1: the Dense Extractor's size check -/

theorem simple_table_grid_ne_nil {ops : SpatialOps} {elements : List PDFElement}
    {grid : List (List (Option PDFElement))}
    (h : simple_table_grid ops elements = .ok grid) : elements ≠ [] := by
  intro he
  subst he
  cases h

theorem simple_table_grid_row_lengths {ops : SpatialOps} {elements : List PDFElement}
    {grid : List (List (Option PDFElement))}
    (h : simple_table_grid ops elements = .ok grid) :
    ∀ row ∈ grid, ∃ e0 rest, elements = e0 :: rest ∧
      row.length = (ops.to_the_right_of elements e0 true).length := by
  cases elements with
  | nil => cases h
  | cons e0 rest =>
    intro row hrow
    rcases mapME_ok_forall h row hrow with ⟨lhe, _, hinner⟩
    exact ⟨e0, rest, rfl, mapME_ok_length hinner⟩

/-- C1 (amended): once the probing phase has produced a grid, the Dense
Extractor fails with a `TableExtractionError` exactly when the total number of
cells of the grid (empty cells included — the code sums `len(row)` over all
rows) differs from the size of the input collection; when the two counts agree
it returns the grid without error. -/
theorem extract_simple_table_size_check (ops : SpatialOps) (elements : List PDFElement)
    (grid : List (List (Option PDFElement)))
    (hgrid : simple_table_grid ops elements = .ok grid) :
    ((grid.map List.length).sum ≠ elements.length →
      extract_simple_table ops elements =
        .error (.tableExtractionSizeMismatch (grid.map List.length).sum elements.length)) ∧
    ((grid.map List.length).sum = elements.length →
      extract_simple_table ops elements = .ok grid) ∧
    (∀ e, extract_simple_table ops elements = .error e → e.isTableExtractionError = true →
      (grid.map List.length).sum ≠ elements.length) := by
  have hmain : extract_simple_table ops elements =
      (if (grid.map List.length).sum ≠ elements.length then
        .error (.tableExtractionSizeMismatch (grid.map List.length).sum elements.length)
      else
        match _validate_table_shape grid with
        | .error e => .error e
        | .ok _ => .ok grid) := by
    unfold extract_simple_table
    rw [hgrid]
  have hok : (grid.map List.length).sum = elements.length →
      extract_simple_table ops elements = .ok grid := by
    intro hs
    rw [hmain, if_neg (by simp [hs])]
    have hgne : grid ≠ [] := by
      intro hg
      subst hg
      apply simple_table_grid_ne_nil hgrid
      cases elements with
      | nil => rfl
      | cons e0 rest => simp at hs
    have huni : ∀ row ∈ grid, row.length = (grid.headD []).length := by
      intro row hrow
      rcases simple_table_grid_row_lengths hgrid row hrow with ⟨e0, rest, he, hlen⟩
      cases grid with
      | nil => exact absurd rfl hgne
      | cons g0 grest =>
        rcases simple_table_grid_row_lengths hgrid g0 (List.mem_cons_self g0 grest) with
          ⟨e02, rest2, he2, hlen2⟩
        rw [he2] at he
        cases he
        simp [hlen, hlen2]
    rw [(validate_table_shape_ok_iff hgne).mpr huni]
  refine ⟨?_, hok, ?_⟩
  · intro hs
    rw [hmain, if_pos hs]
  · intro e he _
    intro hs
    rw [hok hs] at he
    cases he

/-- Witness for C1 on a one-element layout: counts agree and the 1 x 1 grid is
returned. -/
theorem extract_simple_table_size_check_witness :
    extract_simple_table geomOps [eA] = .ok [[some eA]] :=
  (extract_simple_table_size_check geomOps [eA] [[some eA]] rfl).2.1 rfl

/-- The grid that the Dense Extractor probes on the layout `es3`: a 2 x 2 grid
whose bottom-right cell is empty. -/
def grid3 : List (List (Option PDFElement)) := [[some eA, some eB], [some eC, none]]

/-- C1 counterexample: on `es3` the number of non-empty cells of the probed
grid equals the collection size (3 = 3), yet `extract_simple_table` raises a
`TableExtractionError` — the code compares the count of all cells (4), not of
non-empty cells, against the collection size. -/
theorem extract_simple_table_size_check_cex :
    simple_table_grid geomOps es3 = .ok grid3 ∧
    spec_non_empty_cell_count grid3 = es3.length ∧
    extract_simple_table geomOps es3 = .error (.tableExtractionSizeMismatch 4 3) ∧
    (TableError.tableExtractionSizeMismatch 4 3).isTableExtractionError = true :=
  ⟨rfl, rfl, rfl, rfl⟩

/-! ## C9: grids returned by the extractors are rectangular -/

/-- C9: every grid returned without error by `extract_simple_table` or
`extract_table` passes shape validation and is rectangular (all rows have
equal length), and running the validator twice on any grid gives the same
result as running it once. -/
theorem extractors_return_rectangular (ops : SpatialOps) (elements : List PDFElement)
    (table : List (List (Option PDFElement)))
    (h : extract_simple_table ops elements = .ok table ∨
      extract_table ops elements = .ok table) :
    _validate_table_shape table = .ok () ∧
    (∀ row ∈ table, row.length = (table.headD []).length) ∧
    (∀ t : List (List (Option PDFElement)),
      (match _validate_table_shape t with
        | .ok _ => _validate_table_shape t
        | .error e => (.error e : Except TableError Unit)) = _validate_table_shape t) := by
  have hval : _validate_table_shape table = .ok () := by
    rcases h with h | h
    · unfold extract_simple_table at h
      cases hg : simple_table_grid ops elements with
      | error e => rw [hg] at h; cases h
      | ok g =>
        rw [hg] at h
        dsimp only at h
        by_cases hs : (g.map List.length).sum ≠ elements.length
        · rw [if_pos hs] at h; cases h
        · rw [if_neg hs] at h
          cases hv : _validate_table_shape g with
          | error e => rw [hv] at h; cases h
          | ok u => rw [hv] at h; cases h; cases u; exact hv
    · simp only [extract_table] at h
      by_cases h1 : (((row_col_sets ops elements).1.map List.length).sum ≠
          (row_col_sets ops elements).1.flatten.dedup.length)
      · rw [if_pos h1] at h; cases h
      · rw [if_neg h1] at h
        by_cases h2 : (((row_col_sets ops elements).2.map List.length).sum ≠
            (row_col_sets ops elements).2.flatten.dedup.length)
        · rw [if_pos h2] at h; cases h
        · rw [if_neg h2] at h
          cases hm : mapME (fun row => mapME
              (fun col => table_cell ops row col)
              (stable_sort (fun a b => min_x0 a ≤ min_x0 b) (row_col_sets ops elements).2))
              (stable_sort (fun a b => min_y0 b ≤ min_y0 a) (row_col_sets ops elements).1) with
          | error e => rw [hm] at h; cases h
          | ok t2 =>
            rw [hm] at h
            dsimp only at h
            cases hv : _validate_table_shape t2 with
            | error e => rw [hv] at h; cases h
            | ok u => rw [hv] at h; cases h; cases u; exact hv
  refine ⟨hval, validate_table_shape_ok_uniform hval, ?_⟩
  intro t
  cases hv : _validate_table_shape t with
  | error e => rfl
  | ok u => cases u; rfl

/-- Witness for C9 on a one-element layout. -/
theorem extractors_return_rectangular_witness :
    _validate_table_shape [[some eA]] = .ok () :=
  (extractors_return_rectangular geomOps [eA] [[some eA]] (Or.inl rfl)).1

/-! ## Lemmas about the embedded Python dict -/

theorem dict_any_eq_mem (d : DictRow) (k : String) :
    (d.any (fun p => p.1 = k)) = true ↔ k ∈ dict_keys d := by
  simp [dict_keys, List.any_eq_true, List.mem_map]

theorem dict_keys_insert_of_mem {d : DictRow} {k : String} (v : String)
    (h : k ∈ dict_keys d) : dict_keys (dict_insert d k v) = dict_keys d := by
  unfold dict_insert
  rw [if_pos ((dict_any_eq_mem d k).mpr h)]
  unfold dict_keys
  rw [List.map_map]
  apply List.map_congr_left
  intro p _
  by_cases hp : p.1 = k
  · simp [hp]
  · simp [hp]

theorem dict_insert_of_not_mem {d : DictRow} {k : String} (v : String)
    (h : k ∉ dict_keys d) : dict_insert d k v = d ++ [(k, v)] := by
  unfold dict_insert
  rw [if_neg]
  intro hc
  exact h ((dict_any_eq_mem d k).mp hc)

theorem dict_keys_mem_insert (d : DictRow) (k v k2 : String) :
    k2 ∈ dict_keys (dict_insert d k v) ↔ k2 ∈ dict_keys d ∨ k2 = k := by
  by_cases h : k ∈ dict_keys d
  · rw [dict_keys_insert_of_mem v h]
    constructor
    · exact Or.inl
    · rintro (h2 | h2)
      · exact h2
      · exact h2 ▸ h
  · rw [dict_insert_of_not_mem v h]
    simp [dict_keys]

theorem dict_keys_insert_nodup (d : DictRow) (k v : String)
    (h : (dict_keys d).Nodup) : (dict_keys (dict_insert d k v)).Nodup := by
  by_cases hm : k ∈ dict_keys d
  · rw [dict_keys_insert_of_mem v hm]
    exact h
  · rw [dict_insert_of_not_mem v hm]
    unfold dict_keys at *
    rw [List.map_append]
    rw [List.nodup_append]
    refine ⟨h, by simp, ?_⟩
    intro a ha hb
    simp at hb
    exact hm (hb ▸ ha)

theorem dict_fold_keys_nodup (pairs : List (String × String)) :
    ∀ d : DictRow, (dict_keys d).Nodup →
      (dict_keys (pairs.foldl (fun d p => dict_insert d p.1 p.2) d)).Nodup := by
  induction pairs with
  | nil => exact fun d h => h
  | cons p ps ih => exact fun d h => ih _ (dict_keys_insert_nodup d p.1 p.2 h)

theorem dict_fold_keys_mem (pairs : List (String × String)) :
    ∀ (d : DictRow) (k : String),
      k ∈ dict_keys (pairs.foldl (fun d p => dict_insert d p.1 p.2) d) ↔
        k ∈ dict_keys d ∨ k ∈ pairs.map Prod.fst := by
  induction pairs with
  | nil => simp
  | cons p ps ih =>
    intro d k
    rw [List.foldl_cons, ih, dict_keys_mem_insert]
    simp
    tauto

theorem dict_of_row_keys_nodup (header row : List String) :
    (dict_keys (dict_of_row header row)).Nodup :=
  dict_fold_keys_nodup _ [] (by simp [dict_keys])

theorem dict_of_row_keys_mem (header row : List String) (k : String) :
    k ∈ dict_keys (dict_of_row header row) ↔ k ∈ (header.zip row).map Prod.fst := by
  unfold dict_of_row
  rw [dict_fold_keys_mem]
  simp [dict_keys]

theorem dict_fold_append (pairs : List (String × String)) :
    ∀ d : DictRow, ((d ++ pairs).map Prod.fst).Nodup →
      pairs.foldl (fun d p => dict_insert d p.1 p.2) d = d ++ pairs := by
  induction pairs with
  | nil => intro d _; simp
  | cons p ps ih =>
    intro d hnd
    rw [List.foldl_cons]
    have hfresh : p.1 ∉ dict_keys d := by
      rw [List.map_append] at hnd
      rcases List.nodup_append.mp hnd with ⟨_, _, hdisj⟩
      intro hc
      exact hdisj hc (by simp)
    rw [dict_insert_of_not_mem p.2 hfresh]
    have : d ++ [(p.1, p.2)] ++ ps = d ++ p :: ps := by simp
    rw [ih (d ++ [(p.1, p.2)]) (by rw [this]; exact hnd), this]

theorem dict_of_row_eq_zip {header row : List String} (hnd : header.Nodup)
    (hle : header.length ≤ row.length) : dict_of_row header row = header.zip row := by
  unfold dict_of_row
  have h2 : ((([] : DictRow) ++ header.zip row).map Prod.fst).Nodup := by
    rw [List.nil_append, List.map_fst_zip header row hle]
    exact hnd
  have h3 := dict_fold_append (header.zip row) [] h2
  rw [List.nil_append] at h3
  exact h3

theorem zip_lookup {header : List String} (hnd : header.Nodup) :
    ∀ {row : List String} {j : Nat} {k v : String}, header[j]? = some k →
      row[j]? = some v → dict_lookup (header.zip row) k = some v := by
  induction header with
  | nil => intro row j k v hk; rw [List.getElem?_nil] at hk; cases hk
  | cons k0 h2 ih =>
    intro row j k v hk hv
    cases row with
    | nil => rw [List.getElem?_nil] at hv; cases hv
    | cons v0 row2 =>
      cases j with
      | zero =>
        rw [List.getElem?_cons_zero] at hk hv
        cases hk
        cases hv
        unfold dict_lookup
        rw [List.zip_cons_cons, List.find?_cons_of_pos _ (by simp)]
        rfl
      | succ j2 =>
        rw [List.getElem?_cons_succ] at hk hv
        have hkmem : k ∈ h2 := by
          rcases List.getElem?_eq_some.mp hk with ⟨hlt, hget⟩
          exact hget ▸ List.getElem_mem hlt
        have hne : k0 ≠ k := by
          intro hc
          exact (List.nodup_cons.mp hnd).1 (hc ▸ hkmem)
        unfold dict_lookup
        rw [List.zip_cons_cons, List.find?_cons_of_neg _ (by simp [hne])]
        exact ih (List.nodup_cons.mp hnd).2 hk hv

/-! ## Reduction lemmas for add_header_to_table -/

theorem add_header_none_eq {table : List (List String)}
    (hv : _validate_table_shape table = .ok ()) :
    add_header_to_table table none =
      .ok ((table.map (fun row => dict_of_row (table.headD []) row)).drop 1) := by
  unfold add_header_to_table
  rw [hv]
  rfl

theorem add_header_some_eq_of_valid {table : List (List String)} {h : List String}
    (hv : _validate_table_shape table = .ok ())
    (h1 : h.length = (table.headD []).length)
    (h2 : h.length = h.dedup.length) :
    add_header_to_table table (some h) =
      .ok (if !h.isEmpty then table.map (fun row => dict_of_row h row)
           else (table.map (fun row => dict_of_row h row)).drop 1) := by
  unfold add_header_to_table
  rw [hv]
  dsimp only
  rw [if_neg (by simp [h1]), if_neg (by simp [h2])]

theorem add_header_some_len_error {table : List (List String)} {h : List String}
    (hv : _validate_table_shape table = .ok ())
    (h1 : h.length ≠ (table.headD []).length) :
    add_header_to_table table (some h) =
      .error (.invalidTableHeaderLength h.length (table.headD []).length) := by
  unfold add_header_to_table
  rw [hv]
  dsimp only
  rw [if_pos h1]

theorem add_header_some_dup_error {table : List (List String)} {h : List String}
    (hv : _validate_table_shape table = .ok ())
    (h1 : h.length = (table.headD []).length)
    (h2 : h.length ≠ h.dedup.length) :
    add_header_to_table table (some h) = .error .invalidTableHeaderRepeated := by
  unfold add_header_to_table
  rw [hv]
  dsimp only
  rw [if_neg (by simp [h1]), if_pos h2]

theorem add_header_none_inv {table : List (List String)} {rows : List DictRow}
    (hok : add_header_to_table table none = .ok rows) :
    _validate_table_shape table = .ok () ∧
    rows = (table.map (fun row => dict_of_row (table.headD []) row)).drop 1 := by
  cases hv : _validate_table_shape table with
  | error e => unfold add_header_to_table at hok; rw [hv] at hok; cases hok
  | ok u =>
    cases u
    rw [add_header_none_eq hv] at hok
    cases hok
    exact ⟨rfl, rfl⟩

theorem add_header_some_inv {table : List (List String)} {h : List String} {rows : List DictRow}
    (hok : add_header_to_table table (some h) = .ok rows) :
    _validate_table_shape table = .ok () ∧
    h.length = (table.headD []).length ∧ h.length = h.dedup.length ∧
    rows = (if !h.isEmpty then table.map (fun row => dict_of_row h row)
            else (table.map (fun row => dict_of_row h row)).drop 1) := by
  cases hv : _validate_table_shape table with
  | error e => unfold add_header_to_table at hok; rw [hv] at hok; cases hok
  | ok u =>
    cases u
    by_cases h1 : h.length = (table.headD []).length
    · by_cases h2 : h.length = h.dedup.length
      · rw [add_header_some_eq_of_valid hv h1 h2] at hok
        cases hok
        exact ⟨rfl, h1, h2, rfl⟩
      · rw [add_header_some_dup_error hv h1 h2] at hok; cases hok
    · rw [add_header_some_len_error hv h1] at hok; cases hok

/-! ## C4: an explicit header keeps every row -/

/-- C4 (amended): for every grid and every non-empty explicitly supplied
header accepted by validation, `add_header_to_table` maps every row of the
grid — the first row included — so the output has one mapped row per input
row.  (When the supplied header is the empty list, which validation can only
accept for a zero-column table, Python's `bool([])` makes the code treat it as
absent and drop the first row; the non-emptiness hypothesis excludes exactly
that degenerate case.) -/
theorem add_header_explicit_keeps_all_rows (table : List (List String)) (h : List String)
    (rows : List DictRow) (hne : h ≠ [])
    (hok : add_header_to_table table (some h) = .ok rows) :
    rows = table.map (fun row => dict_of_row h row) ∧ rows.length = table.length := by
  rcases add_header_some_inv hok with ⟨_, _, _, hrows⟩
  have hie : h.isEmpty = false := by
    cases h with
    | nil => exact absurd rfl hne
    | cons a t => rfl
  rw [hie] at hrows
  simp only [Bool.not_false, if_true] at hrows
  exact ⟨hrows, by rw [hrows]; exact List.length_map table _⟩

/-- Witness for C4 on a 2-column table with explicit header
`["h1", "h2"]`. -/
theorem add_header_explicit_keeps_all_rows_witness :
    [[("h1", "a"), ("h2", "b")], [("h1", "x"), ("h2", "y")]] =
      ([["a", "b"], ["x", "y"]] : List (List String)).map
        (fun row => dict_of_row ["h1", "h2"] row) ∧
    ([[("h1", "a"), ("h2", "b")], [("h1", "x"), ("h2", "y")]] : List DictRow).length =
      ([["a", "b"], ["x", "y"]] : List (List String)).length :=
  add_header_explicit_keeps_all_rows [["a", "b"], ["x", "y"]] ["h1", "h2"]
    [[("h1", "a"), ("h2", "b")], [("h1", "x"), ("h2", "y")]] (by simp) rfl

/-- C4 counterexample: the zero-column table `[[], []]` with the explicitly
supplied (and validation-passing) header `[]` yields only one mapped row for
two input rows — the first row is dropped even though a header argument was
given, because `bool([])` is false in Python. -/
theorem add_header_explicit_keeps_all_rows_cex :
    add_header_to_table ([[], []] : List (List String)) (some []) = .ok [[]] ∧
    ([[]] : List DictRow).length = 1 ∧
    ([[], []] : List (List String)).length = 2 :=
  ⟨rfl, rfl, rfl⟩

/-! ## C7: header merge without an explicit header -/

/-- C7: for every non-empty rectangular grid, `add_header_to_table` with no
header returns one mapped row per non-first row (`len(G) - 1` rows), each row
being the dict built position by position from the first row `G[0]` and the
data row; when `G[0]` has no duplicate labels, each mapped row sends the
label at position `j` of `G[0]` to the entry at position `j` of the data
row. -/
theorem add_header_implicit_spec (table : List (List String)) (hne : table ≠ [])
    (hrect : ∀ row ∈ table, row.length = (table.headD []).length) :
    add_header_to_table table none =
      .ok ((table.drop 1).map (fun row => dict_of_row (table.headD []) row)) ∧
    ((table.drop 1).map (fun row => dict_of_row (table.headD []) row)).length =
      table.length - 1 ∧
    ((table.headD []).Nodup → ∀ row ∈ table, ∀ (j : Nat) (k v : String),
      (table.headD [])[j]? = some k → row[j]? = some v →
      dict_lookup (dict_of_row (table.headD []) row) k = some v) := by
  have hv : _validate_table_shape table = .ok () := (validate_table_shape_ok_iff hne).mpr hrect
  refine ⟨?_, by simp, ?_⟩
  · rw [add_header_none_eq hv, List.map_drop]
  · intro hnd row hrow j k v hk hv2
    have hlen : row.length = (table.headD []).length := hrect row hrow
    rw [dict_of_row_eq_zip hnd (by omega)]
    exact zip_lookup hnd hk hv2

/-- Witness for C7 on the grid `[["a","b"],["x","y"]]`. -/
theorem add_header_implicit_spec_witness :
    add_header_to_table [["a", "b"], ["x", "y"]] none =
      .ok [[("a", "x"), ("b", "y")]] :=
  (add_header_implicit_spec [["a", "b"], ["x", "y"]] (by simp) (by decide)).1

/-! ## C8: explicit-header validation -/

/-- C8: for every non-empty rectangular grid and explicitly supplied header,
`add_header_to_table` fails with an `InvalidTableHeaderError` when the
header's length differs from the table's column count, and also when the
lengths match but the header contains a duplicate label. -/
theorem add_header_explicit_validation (table : List (List String)) (h : List String)
    (hne : table ≠ []) (hrect : ∀ row ∈ table, row.length = (table.headD []).length) :
    (h.length ≠ (table.headD []).length →
      add_header_to_table table (some h) =
        .error (.invalidTableHeaderLength h.length (table.headD []).length) ∧
      (TableError.invalidTableHeaderLength h.length
        (table.headD []).length).isInvalidTableHeaderError = true) ∧
    (h.length = (table.headD []).length → ¬h.Nodup →
      add_header_to_table table (some h) = .error .invalidTableHeaderRepeated ∧
      TableError.invalidTableHeaderRepeated.isInvalidTableHeaderError = true) := by
  have hv : _validate_table_shape table = .ok () := (validate_table_shape_ok_iff hne).mpr hrect
  refine ⟨fun h1 => ⟨add_header_some_len_error hv h1, rfl⟩, fun h1 h2 => ?_⟩
  refine ⟨add_header_some_dup_error hv h1 ?_, rfl⟩
  intro hc
  have heq : h.dedup = h := (List.dedup_sublist h).eq_of_length hc.symm
  exact h2 (heq ▸ List.nodup_dedup h)

/-- Witness for C8: a length-1 header and a duplicated length-2 header against
a 2-column table. -/
theorem add_header_explicit_validation_witness :
    add_header_to_table [["a", "b"], ["x", "y"]] (some ["q"]) =
      .error (.invalidTableHeaderLength 1 2) ∧
    add_header_to_table [["a", "b"], ["x", "y"]] (some ["q", "q"]) =
      .error .invalidTableHeaderRepeated :=
  ⟨((add_header_explicit_validation [["a", "b"], ["x", "y"]] ["q"]
      (by simp) (by decide)).1 (by decide)).1,
   ((add_header_explicit_validation [["a", "b"], ["x", "y"]] ["q", "q"]
      (by simp) (by decide)).2 (by decide) (by decide)).1⟩

/-! ## C3: uniqueness of the header labels keying each returned row -/

/-- C3 (amended): whenever `add_header_to_table` returns rows, the labels
keying each returned row are unique (dict keys cannot repeat), and there is
one key per distinct label of the effective header — when no explicit header
is supplied and the first row contains duplicate labels, this is fewer keys
than the table has columns, because later duplicate labels overwrite earlier
ones in the dict. -/
theorem add_header_keys_unique (table : List (List String)) (header : Option (List String))
    (rows : List DictRow) (hok : add_header_to_table table header = .ok rows) :
    ∀ d ∈ rows, (dict_keys d).Nodup ∧
      ∀ k, k ∈ dict_keys d ↔ k ∈ effective_header table header := by
  cases header with
  | none =>
    rcases add_header_none_inv hok with ⟨hv, hrows⟩
    intro d hd
    have hd2 : d ∈ table.map (fun row => dict_of_row (table.headD []) row) := by
      rw [hrows] at hd
      exact List.mem_of_mem_drop hd
    rcases List.mem_map.mp hd2 with ⟨row, hrow, hd3⟩
    subst hd3
    refine ⟨dict_of_row_keys_nodup _ _, ?_⟩
    intro k
    rw [dict_of_row_keys_mem]
    have hlen : row.length = (table.headD []).length :=
      validate_table_shape_ok_uniform hv row hrow
    rw [List.map_fst_zip _ _ (by omega)]
    exact Iff.rfl
  | some h =>
    rcases add_header_some_inv hok with ⟨hv, h1, _, hrows⟩
    intro d hd
    have hd2 : d ∈ table.map (fun row => dict_of_row h row) := by
      rw [hrows] at hd
      by_cases hb : (!h.isEmpty) = true
      · rw [if_pos hb] at hd
        exact hd
      · rw [if_neg hb] at hd
        exact List.mem_of_mem_drop hd
    rcases List.mem_map.mp hd2 with ⟨row, hrow, hd3⟩
    subst hd3
    refine ⟨dict_of_row_keys_nodup _ _, ?_⟩
    intro k
    rw [dict_of_row_keys_mem]
    have hlen : row.length = (table.headD []).length :=
      validate_table_shape_ok_uniform hv row hrow
    rw [List.map_fst_zip _ _ (by omega)]
    exact Iff.rfl

/-- Witness for C3 on the duplicate-free implicit header `["a","b"]`. -/
theorem add_header_keys_unique_witness :
    (dict_keys [("a", "x"), ("b", "y")]).Nodup ∧
    (("a" ∈ dict_keys [("a", "x"), ("b", "y")]) ↔
      "a" ∈ effective_header [["a", "b"], ["x", "y"]] none) := by
  have h := add_header_keys_unique [["a", "b"], ["x", "y"]] none
    [[("a", "x"), ("b", "y")]] rfl [("a", "x"), ("b", "y")] (by simp)
  exact ⟨h.1, h.2 "a"⟩

/-- C3 counterexample: with the duplicate implicit header `["a","a"]` the call
succeeds and returns a row keyed by a single label, not one key per table
column (the table has two columns). -/
theorem add_header_keys_unique_cex :
    add_header_to_table [["a", "a"], ["x", "y"]] none = .ok [[("a", "y")]] ∧
    (dict_keys [("a", "y")]).length = 1 ∧
    (([["a", "a"], ["x", "y"]] : List (List String)).headD []).length = 2 :=
  ⟨rfl, rfl, rfl⟩

/-! ## C2: which errors are caught -/

/-- C2 (amended): both extractors — not only the Dense Extractor — catch the
no-element-found condition while probing a cell and convert it into an
empty-cell marker; any other error from a probe (in particular the ambiguous
multiple-elements condition) propagates, and the remaining operations of the
module catch nothing: the text projections re-raise any extractor or
validator error unchanged, as does header association. -/
theorem no_error_swallowed_except_probes :
    (∀ (ops : SpatialOps) (elements : List PDFElement) (lhe te : PDFElement),
      extract_single_element (ops.below (ops.to_the_right_of elements lhe true) te true) =
        .error .noElementFound →
      probe_cell ops elements lhe te = .ok none) ∧
    (∀ (ops : SpatialOps) (elements : List PDFElement) (lhe te : PDFElement) (e : TableError),
      e ≠ .noElementFound →
      extract_single_element (ops.below (ops.to_the_right_of elements lhe true) te true) =
        .error e →
      probe_cell ops elements lhe te = .error e) ∧
    (∀ (ops : SpatialOps) (row col : List PDFElement),
      extract_single_element (ops.inter row col) = .error .noElementFound →
      table_cell ops row col = .ok none) ∧
    (∀ (ops : SpatialOps) (row col : List PDFElement) (e : TableError),
      e ≠ .noElementFound →
      extract_single_element (ops.inter row col) = .error e →
      table_cell ops row col = .error e) ∧
    (∀ (ops : SpatialOps) (elements : List PDFElement) (e : TableError),
      extract_simple_table ops elements = .error e →
      extract_text_from_simple_table ops elements = .error e) ∧
    (∀ (ops : SpatialOps) (elements : List PDFElement) (e : TableError),
      extract_table ops elements = .error e →
      extract_text_from_table ops elements = .error e) ∧
    (∀ (table : List (List String)) (header : Option (List String)) (e : TableError),
      _validate_table_shape table = .error e →
      add_header_to_table table header = .error e) ∧
    (∀ (table : List (List (Option PDFElement))) (e : TableError),
      _validate_table_shape table = .error e →
      _extract_text_from_table table = .error e) := by
  refine ⟨?_, ?_, ?_, ?_, ?_, ?_, ?_, ?_⟩
  · intro ops elements lhe te h
    unfold probe_cell
    rw [h]
  · intro ops elements lhe te e hne h
    unfold probe_cell
    rw [h]
    cases e
    case noElementFound => exact absurd rfl hne
    all_goals rfl
  · intro ops row col h
    unfold table_cell
    rw [h]
  · intro ops row col e hne h
    unfold table_cell
    rw [h]
    cases e
    case noElementFound => exact absurd rfl hne
    all_goals rfl
  · intro ops elements e h
    unfold extract_text_from_simple_table
    rw [h]
  · intro ops elements e h
    unfold extract_text_from_table
    rw [h]
  · intro table header e h
    unfold add_header_to_table
    rw [h]
  · intro table e h
    unfold _extract_text_from_table
    rw [h]

/-- Witness for C2: a concrete empty cell probe inside the Alignment
Extractor is converted to an empty-cell marker. -/
theorem no_error_swallowed_except_probes_witness :
    table_cell geomOps (geomOps.horizontally_in_line_with es3 eC true)
      (geomOps.vertically_in_line_with es3 eB true) = .ok none :=
  no_error_swallowed_except_probes.2.2.1 geomOps
    (geomOps.horizontally_in_line_with es3 eC true)
    (geomOps.vertically_in_line_with es3 eB true) rfl

/-- C2 counterexample: on `es3` the Alignment Extractor's probe of the
bottom-right cell hits the no-element-found condition, yet `extract_table`
returns successfully — so `extract_table` also swallows that error, contrary
to the claim that only the Dense Extractor does. -/
theorem no_error_swallowed_except_probes_cex :
    extract_single_element (geomOps.inter (geomOps.horizontally_in_line_with es3 eC true)
      (geomOps.vertically_in_line_with es3 eB true)) = .error .noElementFound ∧
    extract_table geomOps es3 = .ok [[some eA, some eB], [some eC, none]] :=
  ⟨rfl, rfl⟩

/-! ## C6: the disjointness checks of the Alignment Extractor -/

theorem dedup_insert_nodup {l : List (List PDFElement)} {x : List PDFElement}
    (h : l.Nodup) : (dedup_insert l x).Nodup := by
  unfold dedup_insert
  by_cases hm : x ∈ l
  · rw [if_pos hm]
    exact h
  · rw [if_neg hm]
    rw [List.nodup_append]
    refine ⟨h, by simp, ?_⟩
    intro a ha hb
    simp at hb
    exact hm (hb ▸ ha)

theorem row_col_sets_nodup (ops : SpatialOps) (elements : List PDFElement) :
    (row_col_sets ops elements).1.Nodup ∧ (row_col_sets ops elements).2.Nodup := by
  have aux : ∀ (l : List PDFElement) (p : List (List PDFElement) × List (List PDFElement)),
      p.1.Nodup → p.2.Nodup →
      ((l.foldl (fun p element =>
        (dedup_insert p.1 (ops.horizontally_in_line_with elements element true),
         dedup_insert p.2 (ops.vertically_in_line_with elements element true))) p).1.Nodup ∧
       (l.foldl (fun p element =>
        (dedup_insert p.1 (ops.horizontally_in_line_with elements element true),
         dedup_insert p.2 (ops.vertically_in_line_with elements element true))) p).2.Nodup) := by
    intro l
    induction l with
    | nil => exact fun p h1 h2 => ⟨h1, h2⟩
    | cons x xs ih =>
      intro p h1 h2
      exact ih _ (dedup_insert_nodup h1) (dedup_insert_nodup h2)
  exact aux elements ([], []) List.nodup_nil List.nodup_nil

theorem dedup_length_eq_iff {l : List PDFElement} :
    l.dedup.length = l.length ↔ l.Nodup := by
  constructor
  · intro h
    have heq := (List.dedup_sublist l).eq_of_length h
    exact heq ▸ List.nodup_dedup l
  · intro h
    rw [h.dedup]

theorem sum_ne_flatten_dedup_iff (L : List (List PDFElement)) :
    (L.map List.length).sum ≠ L.flatten.dedup.length ↔ ¬ L.flatten.Nodup := by
  rw [← List.length_flatten]
  constructor
  · intro h hn
    exact h (dedup_length_eq_iff.mpr hn).symm
  · intro hn hc
    exact hn (dedup_length_eq_iff.mp hc.symm)

theorem shared_element_iff {L : List (List PDFElement)} (hL : L.Nodup)
    (hmem : ∀ l ∈ L, l.Nodup) :
    (¬ L.flatten.Nodup) ↔
      ∃ e l1 l2, l1 ∈ L ∧ l2 ∈ L ∧ l1 ≠ l2 ∧ e ∈ l1 ∧ e ∈ l2 := by
  rw [List.nodup_flatten]
  constructor
  · intro h
    have hpd : ¬ L.Pairwise List.Disjoint := fun hp => h ⟨hmem, hp⟩
    rw [List.pairwise_iff_getElem] at hpd
    push_neg at hpd
    obtain ⟨i, j, hi, hj, hij, hnd⟩ := hpd
    rw [List.disjoint_left] at hnd
    push_neg at hnd
    obtain ⟨e, he1, he2⟩ := hnd
    refine ⟨e, L[i], L[j], List.getElem_mem hi, List.getElem_mem hj, ?_, he1, he2⟩
    intro hc
    rw [hL.getElem_inj_iff] at hc
    omega
  · rintro ⟨e, l1, l2, h1, h2, hne, he1, he2⟩ ⟨_, hp⟩
    rw [List.pairwise_iff_getElem] at hp
    obtain ⟨i, hi, hieq⟩ := List.getElem_of_mem h1
    obtain ⟨j, hj, hjeq⟩ := List.getElem_of_mem h2
    have hij : i ≠ j := by
      intro hc
      subst hc
      rw [hieq] at hjeq
      exact hne hjeq
    have he1i : e ∈ L[i] := by rw [hieq]; exact he1
    have he2j : e ∈ L[j] := by rw [hjeq]; exact he2
    rcases Nat.lt_or_ge i j with hlt | hge
    · exact hp i j hi hj hlt he1i he2j
    · have hlt2 : j < i := by omega
      exact hp j i hj hi hlt2 he2j he1i

theorem table_cell_error_eq {ops : SpatialOps} {row col : List PDFElement} {e : TableError}
    (h : table_cell ops row col = .error e) : e = .multipleElementsFound := by
  unfold table_cell extract_single_element at h
  cases hl : ops.inter row col with
  | nil => rw [hl] at h; cases h
  | cons a t =>
    cases t with
    | nil => rw [hl] at h; cases h
    | cons b t2 =>
      rw [hl] at h
      cases h
      rfl

theorem extract_table_result_shape {ops : SpatialOps} {elements : List PDFElement}
    (h1 : ¬ ((row_col_sets ops elements).1.map List.length).sum ≠
      (row_col_sets ops elements).1.flatten.dedup.length)
    (h2 : ¬ ((row_col_sets ops elements).2.map List.length).sum ≠
      (row_col_sets ops elements).2.flatten.dedup.length) :
    (∃ t, extract_table ops elements = .ok t) ∨
    extract_table ops elements = .error .multipleElementsFound ∨
    extract_table ops elements = .error .indexError ∨
    ∃ i r a, extract_table ops elements = .error (.invalidTable i r a) := by
  have hred : extract_table ops elements =
      (match mapME (fun row => mapME (fun col => table_cell ops row col)
          (stable_sort (fun a b => min_x0 a ≤ min_x0 b) (row_col_sets ops elements).2))
          (stable_sort (fun a b => min_y0 b ≤ min_y0 a) (row_col_sets ops elements).1) with
        | .error e => .error e
        | .ok table =>
          match _validate_table_shape table with
          | .error e => .error e
          | .ok _ => .ok table) := by
    simp only [extract_table]
    rw [if_neg h1, if_neg h2]
  cases hm : mapME (fun row => mapME (fun col => table_cell ops row col)
      (stable_sort (fun a b => min_x0 a ≤ min_x0 b) (row_col_sets ops elements).2))
      (stable_sort (fun a b => min_y0 b ≤ min_y0 a) (row_col_sets ops elements).1) with
  | error e =>
    rcases mapME_error_exists hm with ⟨r, _, hr⟩
    rcases mapME_error_exists hr with ⟨c, _, hc⟩
    have he := table_cell_error_eq hc
    subst he
    rw [hred, hm]
    exact Or.inr (Or.inl rfl)
  | ok t =>
    cases hv : _validate_table_shape t with
    | error e =>
      rcases validate_table_shape_error_cases hv with he | ⟨i, r, a, he⟩
      · subst he
        rw [hred, hm]
        dsimp only
        rw [hv]
        exact Or.inr (Or.inr (Or.inl rfl))
      · subst he
        rw [hred, hm]
        dsimp only
        rw [hv]
        exact Or.inr (Or.inr (Or.inr ⟨i, r, a, rfl⟩))
    | ok u =>
      cases u
      rw [hred, hm]
      dsimp only
      rw [hv]
      exact Or.inl ⟨t, rfl⟩

theorem extract_table_checks (ops : SpatialOps) (elements : List PDFElement) :
    (extract_table ops elements = .error .tableExtractionMultipleRows ↔
      ((row_col_sets ops elements).1.map List.length).sum ≠
        (row_col_sets ops elements).1.flatten.dedup.length) ∧
    (extract_table ops elements = .error .tableExtractionMultipleColumns ↔
      (((row_col_sets ops elements).1.map List.length).sum =
        (row_col_sets ops elements).1.flatten.dedup.length ∧
       ((row_col_sets ops elements).2.map List.length).sum ≠
        (row_col_sets ops elements).2.flatten.dedup.length)) := by
  by_cases h1 : ((row_col_sets ops elements).1.map List.length).sum ≠
      (row_col_sets ops elements).1.flatten.dedup.length
  · have hr : extract_table ops elements = .error .tableExtractionMultipleRows := by
      simp only [extract_table]
      rw [if_pos h1]
    refine ⟨⟨fun _ => h1, fun _ => hr⟩, ?_, ?_⟩
    · intro hx
      rw [hr] at hx
      exact absurd (Except.error.inj hx) (by decide)
    · rintro ⟨hc1, _⟩
      exact absurd hc1 h1
  · by_cases h2 : ((row_col_sets ops elements).2.map List.length).sum ≠
        (row_col_sets ops elements).2.flatten.dedup.length
    · have hc : extract_table ops elements = .error .tableExtractionMultipleColumns := by
        simp only [extract_table]
        rw [if_neg h1, if_pos h2]
      refine ⟨⟨?_, fun hx => absurd hx h1⟩, ⟨fun _ => ⟨not_not.mp h1, h2⟩, fun _ => hc⟩⟩
      intro hx
      rw [hc] at hx
      exact absurd (Except.error.inj hx) (by decide)
    · have hne : extract_table ops elements ≠ .error .tableExtractionMultipleRows ∧
          extract_table ops elements ≠ .error .tableExtractionMultipleColumns := by
        rcases extract_table_result_shape h1 h2 with ⟨t, ht⟩ | ht | ht | ⟨i, r, a, ht⟩ <;>
          rw [ht] <;> exact ⟨by simp, by simp⟩
      refine ⟨⟨fun hx => absurd hx hne.1, fun hx => absurd hx h1⟩,
        ⟨fun hx => absurd hx hne.2, fun hx => absurd hx.2 h2⟩⟩

/-- C6 (amended): `extract_table` raises the "element in multiple rows"
`TableExtractionError` iff the sum of the sizes of the distinct row-sets
differs from the number of distinct elements across them — equivalently
(row-sets being duplicate-free collections) iff some element belongs to two
distinct row-sets; the "element in multiple columns" error is raised iff the
row check passes and the corresponding column-set condition fails (when both
checks fail, only the row error is raised, the checks being sequential). -/
theorem extract_table_multiple_membership (ops : SpatialOps) (elements : List PDFElement)
    (hrow : ∀ r ∈ (row_col_sets ops elements).1, r.Nodup)
    (hcol : ∀ c ∈ (row_col_sets ops elements).2, c.Nodup) :
    (extract_table ops elements = .error .tableExtractionMultipleRows ↔
      ((row_col_sets ops elements).1.map List.length).sum ≠
        (row_col_sets ops elements).1.flatten.dedup.length) ∧
    (((row_col_sets ops elements).1.map List.length).sum ≠
        (row_col_sets ops elements).1.flatten.dedup.length ↔
      ∃ e r1 r2, r1 ∈ (row_col_sets ops elements).1 ∧ r2 ∈ (row_col_sets ops elements).1 ∧
        r1 ≠ r2 ∧ e ∈ r1 ∧ e ∈ r2) ∧
    (extract_table ops elements = .error .tableExtractionMultipleColumns ↔
      (((row_col_sets ops elements).1.map List.length).sum =
        (row_col_sets ops elements).1.flatten.dedup.length ∧
       ((row_col_sets ops elements).2.map List.length).sum ≠
        (row_col_sets ops elements).2.flatten.dedup.length)) ∧
    (((row_col_sets ops elements).2.map List.length).sum ≠
        (row_col_sets ops elements).2.flatten.dedup.length ↔
      ∃ e c1 c2, c1 ∈ (row_col_sets ops elements).2 ∧ c2 ∈ (row_col_sets ops elements).2 ∧
        c1 ≠ c2 ∧ e ∈ c1 ∧ e ∈ c2) := by
  obtain ⟨hA, hC⟩ := extract_table_checks ops elements
  obtain ⟨hL1, hL2⟩ := row_col_sets_nodup ops elements
  refine ⟨hA, ?_, hC, ?_⟩
  · rw [sum_ne_flatten_dedup_iff]
    exact shared_element_iff hL1 hrow
  · rw [sum_ne_flatten_dedup_iff]
    exact shared_element_iff hL2 hcol

/-- Witness for C6 on the staircase layout: the row-sets overlap, so the
multiple-rows error is raised. -/
theorem extract_table_multiple_membership_witness :
    extract_table geomOps st3 = .error .tableExtractionMultipleRows :=
  (extract_table_multiple_membership geomOps st3 (by decide) (by decide)).1.mpr (by decide)

/-- C6 counterexample: on the staircase layout the column-set condition also
fails, yet the "element in multiple columns" error is not raised — the row
check fires first — refuting the claim's symmetric iff for columns. -/
theorem extract_table_multiple_membership_cex :
    (((row_col_sets geomOps st3).2.map List.length).sum ≠
      (row_col_sets geomOps st3).2.flatten.dedup.length) ∧
    extract_table geomOps st3 ≠ .error .tableExtractionMultipleColumns ∧
    extract_table geomOps st3 = .error .tableExtractionMultipleRows := by
  refine ⟨by decide, ?_, rfl⟩
  intro hx
  have h : extract_table geomOps st3 = .error .tableExtractionMultipleRows := rfl
  rw [h] at hx
  exact absurd (Except.error.inj hx) (by decide)
